import Mathlib

/-!
Shallow embedding of `FClassDesc` (UnLua, `ClassDesc.cpp`): the reflective
class-descriptor cache bridging Lua to Unreal's type system.

The host type system (UStruct / FProperty / UFunction reflection data) is
modelled as an immutable environment `HostEnv`; live `UStruct*` handles are
struct ids (`Nat`).  Descriptor state (the registry of `FClassDesc` objects,
`TMap`s as association lists, `TArray`s as lists) is threaded explicitly
through `GState`.  Fields omitted from the embedding because no claim touches
them: `Size`, `UserdataPadding`, `RefCount`/`AddRef`/`SubRef`, and the
constructor's eager registration of implemented interfaces.  `FPropertyDesc`
and `FFunctionDesc` construction are the opaque factories of the spec; the
embedding records the reflected member they were created from and counts
factory invocations in `GState.factoryCalls`.
-/

namespace UnLua

/-- Association-list lookup, first entry with the given key (models
`TMap::Find` and the registry map). -/
def lookupA {κ : Type} {α : Type} [DecidableEq κ] : List (κ × α) → κ → Option α
  | [], _ => none
  | (k, v) :: rest, key => if k = key then some v else lookupA rest key

/-- Association-list in-place update of the first entry with the given key
(models mutation of the object a `TMap`/registry lookup returned). -/
def updateA {κ : Type} {α : Type} [DecidableEq κ] (f : α → α) : List (κ × α) → κ → List (κ × α)
  | [], _ => []
  | (k, v) :: rest, key => if k = key then (k, f v) :: rest else (k, v) :: updateA f rest key

/-- An opaque default-parameter record (`FParameterCollection`); contents are
out of scope, only identity matters. -/
abbrev FParameterCollection := List String

/-- Reflection data of one `FProperty`: its live name, the struct that is its
outer (`none` models an outer that fails `Cast<UStruct>`), and the deprecation
flag consulted by the name-recovery iterator. -/
structure FPropertyInfo where
  name : String
  outer : Option Nat
  deprecated : Bool
deriving Repr, DecidableEq

/-- Reflection data of one `UFunction`: its name and its outer type. -/
structure UFunctionInfo where
  name : String
  outer : Option Nat
deriving Repr, DecidableEq

/-- Reflection data of one `UStruct`: registry name, the full inheritance
chain (immediate super first, obtained by iterating `GetInheritanceSuper`),
kind flags, and the directly declared properties and functions. -/
structure UStructInfo where
  name : String
  superChain : List Nat
  isClass : Bool
  isScriptStruct : Bool
  isNative : Bool
  ownProps : List FPropertyInfo
  ownFuncs : List UFunctionInfo
deriving Repr, DecidableEq

/-- The host reflection environment: all `UStruct`s by id, plus
`GDefaultParamCollection` (class name to per-function default parameters). -/
structure HostEnv where
  structs : List (Nat × UStructInfo)
  paramCollections : List (String × List (String × FParameterCollection))
deriving Repr, DecidableEq

def HostEnv.find? (env : HostEnv) (sid : Nat) : Option UStructInfo :=
  lookupA env.structs sid

/-- Inheritance chain of a struct id, immediate super first. -/
def chainOf (env : HostEnv) (sid : Nat) : List Nat :=
  match env.find? sid with
  | some info => info.superChain
  | none => []

/-- Directly declared properties of a struct id. -/
def ownPropsOf (env : HostEnv) (sid : Nat) : List FPropertyInfo :=
  match env.find? sid with
  | some info => info.ownProps
  | none => []

/-- Directly declared functions of a struct id. -/
def ownFuncsOf (env : HostEnv) (sid : Nat) : List UFunctionInfo :=
  match env.find? sid with
  | some info => info.ownFuncs
  | none => []

/-- `UStruct::FindPropertyByName`: searches the struct and then its super
chain, declared order, first match wins. -/
def findPropertyByName (env : HostEnv) (sid : Nat) (n : String) : Option FPropertyInfo :=
  (ownPropsOf env sid ++ (chainOf env sid).flatMap (ownPropsOf env)).find? (fun p => p.name == n)

/-- `UClass::FindFunctionByName`: searches the class and then its super chain
(interface function maps are omitted: no claim involves them). -/
def findFunctionByName (env : HostEnv) (sid : Nat) (n : String) : Option UFunctionInfo :=
  (ownFuncsOf env sid ++ (chainOf env sid).flatMap (ownFuncsOf env)).find? (fun f => f.name == n)

/-- Live `UStruct::IsNative()` of a struct id. -/
def envIsNative (env : HostEnv) (sid : Nat) : Bool :=
  match env.find? sid with
  | some info => info.isNative
  | none => true

/-- `FString::FindLastChar`: index of the last occurrence of a character. -/
def findLastChar (c : Char) : List Char → Option Nat
  | [] => none
  | x :: xs =>
    match findLastChar c xs with
    | some i => some (i + 1)
    | none => if x = c then some 0 else none

/-- The display-name recovery applied to each candidate property name in the
non-native script-struct fallback of `RegisterField` (lines 116-130): when the
name is longer than `GuidStrLen + 3 = 35`, chop the trailing
`GuidStrLen + 1 = 33` characters, then cut at the last remaining underscore;
otherwise leave the name unchanged. -/
def recoverDisplayName (s : String) : String :=
  let guidStrLen := 32
  let minimalPostfixLen := guidStrLen + 3
  let cs := s.data
  if cs.length > minimalPostfixLen then
    let chopped := cs.take (cs.length - (guidStrLen + 1))
    match findLastChar '_' chopped with
    | some i => String.mk (chopped.take i)
    | none => String.mk chopped
  else s

/-- The name-recovery loop itself: iterate directly declared, non-deprecated
properties (`TFieldIterator` with `ExcludeSuper`, `ExcludeDeprecated`) and
return the first whose recovered display name equals the queried name. -/
def structNameRecover (env : HostEnv) (sid : Nat) (n : String) : Option FPropertyInfo :=
  match env.find? sid with
  | some info => info.ownProps.find? (fun p => !p.deprecated && recoverDisplayName p.name == n)
  | none => none

/-- `FFieldDesc` as populated by `RegisterField`: the originating query class,
the declaring (outer) class, and the signed 1-based index. -/
structure FFieldDesc where
  queryClass : Nat
  outerClass : Nat
  fieldIndex : Int
deriving Repr, DecidableEq

/-- An entry of a descriptor's `Functions` array: the reflected function the
opaque `FFunctionDesc` factory was invoked on, plus the default-parameter
record passed to it. -/
structure FFunctionDesc where
  func : UFunctionInfo
  defaultParams : Option FParameterCollection
deriving Repr, DecidableEq

/-- `FClassDesc`: per-type cache entry.  `structId` is the descriptor's type
identity (stable name key); `loaded` models `Struct != nullptr`. -/
structure FClassDesc where
  className : String
  structId : Nat
  loaded : Bool
  bIsClass : Bool
  bIsScriptStruct : Bool
  bIsNative : Bool
  superClasses : List Nat
  fields : List (String × FFieldDesc)
  properties : List FPropertyInfo
  functions : List FFunctionDesc
  functionCollection : Option (List (String × FParameterCollection))
deriving Repr, DecidableEq

/-- Global registry state: all live descriptors keyed by struct id, plus a
count of property/function descriptor factory invocations. -/
structure GState where
  descs : List (Nat × FClassDesc)
  factoryCalls : Nat
deriving Repr, DecidableEq

/-- The `FClassDesc` constructor (lines 27-65): kind flags from the live
struct, `SuperClasses` resolved once by walking the inheritance chain,
`FunctionCollection` bound by class name, empty field tables. -/
def mkClassDesc (env : HostEnv) (sid : Nat) (info : UStructInfo) : FClassDesc :=
  { className := info.name
    structId := sid
    loaded := true
    bIsClass := info.isClass
    bIsScriptStruct := info.isScriptStruct
    bIsNative := info.isNative
    superClasses := info.superChain
    fields := []
    properties := []
    functions := []
    functionCollection := if info.isClass then lookupA env.paramCollections info.name else none }

/-- Add a descriptor for `sid` if the registry has none and the host knows the
type (constructing from a dead id never happens in the source; modelled as a
no-op). -/
def ensureDesc (env : HostEnv) (st : GState) (sid : Nat) : GState :=
  match lookupA st.descs sid with
  | some _ => st
  | none =>
    match env.find? sid with
    | some info => { st with descs := st.descs ++ [(sid, mkClassDesc env sid info)] }
    | none => st

/-- `FClassRegistry::RegisterReflectedType`: return the existing descriptor,
or construct one (the constructor recursively registers every ancestor, here
flattened over the full chain). -/
def registerReflectedType (env : HostEnv) (st : GState) (sid : Nat) : GState :=
  match lookupA st.descs sid with
  | some _ => st
  | none => ensureDesc env ((chainOf env sid).foldl (fun s x => ensureDesc env s x) st) sid

/-- `FClassDesc::Load` (lines 185-196): no-op when the struct handle is live;
otherwise re-resolve it by name.  The registry contract guarantees the name
resolves back to the same type, so re-resolution is `loaded := true`. -/
def loadDesc (st : GState) (sid : Nat) : GState :=
  match lookupA st.descs sid with
  | none => st
  | some d =>
    if d.loaded then st
    else { st with descs := updateA (fun dd => { dd with loaded := true }) st.descs sid }

/-- `FClassDesc::UnLoad` (lines 198-215): no-op when already unloaded;
otherwise destroy all field, property and function descriptors, empty the
three collections, and drop the struct handle. -/
def unloadDesc (st : GState) (sid : Nat) : GState :=
  match lookupA st.descs sid with
  | none => st
  | some d =>
    if !d.loaded then st
    else
      { st with
        descs := updateA
          (fun dd => { dd with fields := [], properties := [], functions := [], loaded := false })
          st.descs sid }

/-- `FClassDesc::FindField` (lines 87-93): `Load`, then a pure `Fields`
lookup. -/
def findField (st : GState) (sid : Nat) (n : String) : GState × Option FFieldDesc :=
  let st1 := loadDesc st sid
  match lookupA st1.descs sid with
  | none => (st1, none)
  | some d => (st1, lookupA d.fields n)

/-- The member `RegisterField`'s classification step resolved (a property or a
function). -/
inductive Member where
  | prop (p : FPropertyInfo)
  | func (f : UFunctionInfo)
deriving Repr, DecidableEq

/-- The classification block of `RegisterField` (lines 110-140): property
first; else, for classes, a function; else the non-native script-struct
name-recovery fallback. -/
def classifyMember (env : HostEnv) (d : FClassDesc) (n : String) : Option Member :=
  match findPropertyByName env d.structId n with
  | some p => some (Member.prop p)
  | none =>
    match (if d.bIsClass then findFunctionByName env d.structId n else none) with
    | some f => some (Member.func f)
    | none =>
      if d.bIsScriptStruct && !envIsNative env d.structId then
        match structNameRecover env d.structId n with
        | some p => some (Member.prop p)
        | none => none
      else none

/-- Outer type of a classified member: `GetPropertyOuter(Property)` or
`Function->GetOuter()`, after `Cast<UStruct>`. -/
def memberOuter : Member → Option Nat
  | Member.prop p => p.outer
  | Member.func f => f.outer

/-- Local registration of a property member (lines 157-165): insert the field
descriptor, invoke `FPropertyDesc::Create` once, append to `Properties`. -/
def addLocalProp (st : GState) (sid : Nat) (n : String) (fd : FFieldDesc) (p : FPropertyInfo) : GState :=
  { st with
    descs := updateA
      (fun dd => { dd with fields := dd.fields ++ [(n, fd)], properties := dd.properties ++ [p] })
      st.descs sid
    factoryCalls := st.factoryCalls + 1 }

/-- Local registration of a function member (lines 157-160 and 166-173):
insert the field descriptor, invoke the `FFunctionDesc` factory once, append
to `Functions`. -/
def addLocalFunc (st : GState) (sid : Nat) (n : String) (fd : FFieldDesc) (fe : FFunctionDesc) : GState :=
  { st with
    descs := updateA
      (fun dd => { dd with fields := dd.fields ++ [(n, fd)], functions := dd.functions ++ [fe] })
      st.descs sid
    factoryCalls := st.factoryCalls + 1 }

/-- `FClassDesc::RegisterField` (lines 98-177).  `fuel` bounds the recursive
redirection (in the source the recursion is bounded by the inheritance chain;
any fuel larger than the chain length is enough). -/
def registerField (env : HostEnv) (fuel : Nat) (st : GState) (sid : Nat)
    (fieldName : String) (queryClass : Nat) : GState × Option FFieldDesc :=
  match fuel with
  | 0 => (st, none)
  | Nat.succ fuel =>
    let st1 := loadDesc st sid
    match lookupA st1.descs sid with
    | none => (st1, none)
    | some d =>
      match lookupA d.fields fieldName with
      | some fd => (st1, some fd)
      | none =>
        match classifyMember env d fieldName with
        | none => (st1, none)
        | some m =>
          match memberOuter m with
          | none => (st1, none)
          | some outerSid =>
            if outerSid ≠ d.structId then
              registerField env fuel (registerReflectedType env st1 outerSid) outerSid fieldName queryClass
            else
              match m with
              | Member.prop p =>
                let fd : FFieldDesc :=
                  { queryClass := queryClass, outerClass := d.structId
                    fieldIndex := (d.properties.length : Int) + 1 }
                (addLocalProp st1 sid fieldName fd p, some fd)
              | Member.func f =>
                let dp : Option FParameterCollection :=
                  match d.functionCollection with
                  | some fc => lookupA fc fieldName
                  | none => none
                let fd : FFieldDesc :=
                  { queryClass := queryClass, outerClass := d.structId
                    fieldIndex := -((d.functions.length : Int) + 1) }
                (addLocalFunc st1 sid fieldName fd { func := f, defaultParams := dp }, some fd)

/-- `FClassDesc::GetInheritanceChain` (lines 179-183): `TArray::Add` of this
descriptor then `TArray::Append` of `SuperClasses` onto the caller's array. -/
def getInheritanceChain (d : FClassDesc) (descChain : List Nat) : List Nat :=
  (descChain ++ [d.structId]) ++ d.superClasses

/-- Two descriptors hold the same field, property and function collections. -/
def SameContent (d d' : FClassDesc) : Prop :=
  d'.fields = d.fields ∧ d'.properties = d.properties ∧ d'.functions = d.functions

/-- Two descriptors agree on everything `RegisterField` never mutates:
identity, kind flags, `SuperClasses` and the default-parameter binding. -/
def SameCore (d d' : FClassDesc) : Prop :=
  d'.structId = d.structId ∧ d'.className = d.className ∧ d'.superClasses = d.superClasses ∧
  d'.bIsClass = d.bIsClass ∧ d'.bIsScriptStruct = d.bIsScriptStruct ∧
  d'.bIsNative = d.bIsNative ∧ d'.functionCollection = d.functionCollection

/-- The second descriptor is the first with exactly one new field entry
`(n, fd)` and the matching single append to `Properties` or `Functions`. -/
def Appended (n : String) (fd : FFieldDesc) (d d' : FClassDesc) : Prop :=
  d'.fields = d.fields ++ [(n, fd)] ∧
  ((∃ p, d'.properties = d.properties ++ [p] ∧ d'.functions = d.functions) ∨
   (d'.properties = d.properties ∧ ∃ fe, d'.functions = d.functions ++ [fe]))

/-- How one call `RegisterField(n, _)` returning `r` can change one
descriptor: the core never changes, a loaded descriptor never unloads, and the
collections are either untouched or extended by the single registered entry. -/
def DescEvol (n : String) (r : Option FFieldDesc) (d d' : FClassDesc) : Prop :=
  SameCore d d' ∧ (d.loaded = true → d'.loaded = true) ∧
  (SameContent d d' ∨ ∃ fd, r = some fd ∧ Appended n fd d d')

/-- The declaring-type invariant for one registry entry: a descriptor keyed by
`sid` is the descriptor of type `sid`, every field entry declares this
descriptor as its outer class, and every stored property or function
descriptor was created from a member whose outer is this very type — never an
ancestor. -/
def DescLocalOK (sid : Nat) (d : FClassDesc) : Prop :=
  d.structId = sid ∧ (∀ e ∈ d.fields, e.2.outerClass = sid) ∧
  (∀ p ∈ d.properties, p.outer = some sid) ∧ (∀ fe ∈ d.functions, fe.func.outer = some sid)

/-- The declaring-type invariant over the whole registry. -/
def LocalInv (st : GState) : Prop :=
  ∀ e ∈ st.descs, DescLocalOK e.1 e.2

instance (sid : Nat) (d : FClassDesc) : Decidable (DescLocalOK sid d) := by
  unfold DescLocalOK; infer_instance

instance (st : GState) : Decidable (LocalInv st) := by
  unfold LocalInv; infer_instance

/-! Concrete host environments used by the witnesses and the concrete
claims. -/

/-- Base native class `UBase`: declares property `m` and function `Fire`. -/
def infoBase : UStructInfo :=
  { name := "UBase", superChain := [], isClass := true, isScriptStruct := false
    isNative := true
    ownProps := [{ name := "m", outer := some 0, deprecated := false }]
    ownFuncs := [{ name := "Fire", outer := some 0 }] }

/-- Derived native class `UDerived`, inheriting from `UBase`, declaring
nothing of its own. -/
def infoDerived : UStructInfo :=
  { name := "UDerived", superChain := [0], isClass := true, isScriptStruct := false
    isNative := true, ownProps := [], ownFuncs := [] }

/-- Two-type environment: struct id 0 is `UBase`, struct id 1 is
`UDerived`. -/
def envAB : HostEnv :=
  { structs := [(0, infoBase), (1, infoDerived)], paramCollections := [] }

/-- Registry with both descriptors of `envAB` constructed. -/
def st0AB : GState :=
  registerReflectedType envAB { descs := [], factoryCalls := 0 } 1

/-- The property `m` of `UBase`. -/
def propM : FPropertyInfo := { name := "m", outer := some 0, deprecated := false }

/-- Descriptor of `UBase` as constructed by the registry. -/
def dBase : FClassDesc := mkClassDesc envAB 0 infoBase

/-- Descriptor of `UDerived` as constructed by the registry. -/
def dDerived : FClassDesc := mkClassDesc envAB 1 infoDerived

/-- A non-native script struct whose only property carries an auto-generated
name with a 32-character suffix. -/
def infoC4 : UStructInfo :=
  { name := "SHealth", superChain := [], isClass := false, isScriptStruct := true
    isNative := false
    ownProps := [{ name := "Health_01234567890123456789012345678901_3"
                   outer := some 0, deprecated := false }]
    ownFuncs := [] }

/-- The auto-generated-name property of `infoC4`. -/
def propC4 : FPropertyInfo :=
  { name := "Health_01234567890123456789012345678901_3", outer := some 0, deprecated := false }

/-- Environment holding only the script struct of the name-recovery claim. -/
def envC4 : HostEnv := { structs := [(0, infoC4)], paramCollections := [] }

/-- Registry with the script-struct descriptor constructed. -/
def stC4 : GState := registerReflectedType envC4 { descs := [], factoryCalls := 0 } 0

/-- Three-level inheritance chain: id 2 (`UC`) derives from id 1 (`UB`),
which derives from id 0 (`UA`). -/
def envC7 : HostEnv :=
  { structs :=
      [ (0, { name := "UA", superChain := [], isClass := true, isScriptStruct := false
              isNative := true, ownProps := [], ownFuncs := [] })
      , (1, { name := "UB", superChain := [0], isClass := true, isScriptStruct := false
              isNative := true, ownProps := [], ownFuncs := [] })
      , (2, { name := "UC", superChain := [1, 0], isClass := true, isScriptStruct := false
              isNative := true, ownProps := [], ownFuncs := [] }) ]
    paramCollections := [] }

/-- Registry with the three-level chain of `envC7` constructed. -/
def stC7 : GState := registerReflectedType envC7 { descs := [], factoryCalls := 0 } 2

/-- State after registering the inherited field `m` through the derived
descriptor of `envAB`. -/
def stAB1 : GState := (registerField envAB 2 st0AB 1 "m" 1).1

/-- The field descriptor produced by that registration: query class 1,
declaring class 0, property index 1. -/
def fdM : FFieldDesc := { queryClass := 1, outerClass := 0, fieldIndex := 1 }

/-! Association-list lemmas. -/

theorem lookupA_mem {κ α : Type} [DecidableEq κ] {l : List (κ × α)} {k : κ} {v : α}
    (h : lookupA l k = some v) : (k, v) ∈ l := by
  induction l with
  | nil => simp [lookupA] at h
  | cons e rest ih =>
    obtain ⟨k0, v0⟩ := e
    by_cases hk : k0 = k
    · subst hk
      simp [lookupA] at h
      subst h
      exact List.mem_cons_self _ _
    · simp [lookupA, hk] at h
      exact List.mem_cons_of_mem _ (ih h)

theorem lookupA_cons_self {κ α : Type} [DecidableEq κ] {rest : List (κ × α)} {k : κ} {v : α} :
    lookupA ((k, v) :: rest) k = some v := by
  simp [lookupA]

theorem lookupA_append_of_none {κ α : Type} [DecidableEq κ] {l : List (κ × α)} {k : κ}
    (m : List (κ × α)) (h : lookupA l k = none) : lookupA (l ++ m) k = lookupA m k := by
  induction l with
  | nil => simp
  | cons e rest ih =>
    obtain ⟨k0, v0⟩ := e
    by_cases hk : k0 = k
    · simp [lookupA, hk] at h
    · simp only [lookupA, hk, if_false, List.cons_append] at h ⊢
      exact ih h

theorem lookupA_append_of_some {κ α : Type} [DecidableEq κ] {l : List (κ × α)} {k : κ} {v : α}
    (m : List (κ × α)) (h : lookupA l k = some v) : lookupA (l ++ m) k = some v := by
  induction l with
  | nil => simp [lookupA] at h
  | cons e rest ih =>
    obtain ⟨k0, v0⟩ := e
    by_cases hk : k0 = k
    · simp [lookupA, hk] at h ⊢
      exact h
    · simp only [lookupA, hk, if_false, List.cons_append] at h ⊢
      exact ih h

theorem lookupA_updateA_self {κ α : Type} [DecidableEq κ] {l : List (κ × α)} {k : κ} {v : α}
    (f : α → α) (h : lookupA l k = some v) : lookupA (updateA f l k) k = some (f v) := by
  induction l with
  | nil => simp [lookupA] at h
  | cons e rest ih =>
    obtain ⟨k0, v0⟩ := e
    by_cases hk : k0 = k
    · subst hk
      simp [lookupA] at h
      subst h
      simp [updateA, lookupA]
    · simp only [lookupA, hk, if_false] at h
      simp only [updateA, hk, if_false, lookupA]
      exact ih h

theorem lookupA_updateA_ne {κ α : Type} [DecidableEq κ] {l : List (κ × α)} {k k' : κ}
    (f : α → α) (h : k' ≠ k) : lookupA (updateA f l k) k' = lookupA l k' := by
  induction l with
  | nil => simp [updateA]
  | cons e rest ih =>
    obtain ⟨k0, v0⟩ := e
    by_cases hk : k0 = k
    · subst hk
      have hne : ¬ k0 = k' := fun hc => h (hc ▸ rfl)
      simp [updateA, lookupA, hne]
    · by_cases hk' : k0 = k'
      · subst hk'
        simp [updateA, lookupA, hk]
      · simp only [updateA, hk, if_false, lookupA, hk']
        exact ih

theorem forall_mem_updateA {κ α : Type} [DecidableEq κ] {P : κ × α → Prop}
    {l : List (κ × α)} {k : κ} {f : α → α}
    (h : ∀ e ∈ l, P e) (hf : ∀ v, (k, v) ∈ l → P (k, f v)) :
    ∀ e ∈ updateA f l k, P e := by
  induction l with
  | nil => simp [updateA]
  | cons e rest ih =>
    obtain ⟨k0, v0⟩ := e
    by_cases hk : k0 = k
    · subst hk
      simp only [updateA, if_true]
      intro e he
      rcases List.mem_cons.mp he with he | he
      · subst he
        exact hf v0 (List.mem_cons_self _ _)
      · exact h e (List.mem_cons_of_mem _ he)
    · simp only [updateA, hk, if_false]
      intro e he
      rcases List.mem_cons.mp he with he | he
      · subst he
        exact h _ (List.mem_cons_self _ _)
      · exact ih (fun e' he' => h e' (List.mem_cons_of_mem _ he'))
          (fun v hv => hf v (List.mem_cons_of_mem _ hv)) e he

/-! Lemmas about `loadDesc`. -/

theorem loadDesc_factory (st : GState) (sid : Nat) :
    (loadDesc st sid).factoryCalls = st.factoryCalls := by
  unfold loadDesc
  cases h : lookupA st.descs sid with
  | none => rfl
  | some d => by_cases hl : d.loaded <;> simp [hl]

theorem loadDesc_absent {st : GState} {sid : Nat} (h : lookupA st.descs sid = none) :
    loadDesc st sid = st := by
  unfold loadDesc
  rw [h]

theorem loadDesc_noop {st : GState} {sid : Nat} {d : FClassDesc}
    (h : lookupA st.descs sid = some d) (hl : d.loaded = true) :
    loadDesc st sid = st := by
  unfold loadDesc
  rw [h]
  simp [hl]

/-- Effect of `Load` on every registry entry: unchanged, except that the
loaded descriptor's handle may come alive. -/
theorem loadDesc_lookup (st : GState) (sid Y : Nat) {dy : FClassDesc}
    (h : lookupA st.descs Y = some dy) :
    ∃ dy', lookupA (loadDesc st sid).descs Y = some dy' ∧
      (dy' = dy ∨ dy' = { dy with loaded := true }) := by
  unfold loadDesc
  cases h0 : lookupA st.descs sid with
  | none => exact ⟨dy, h, Or.inl rfl⟩
  | some d =>
    by_cases hl : d.loaded
    · simp only [hl, if_true]
      exact ⟨dy, h, Or.inl rfl⟩
    · simp only [hl, if_false]
      by_cases hy : Y = sid
      · subst hy
        rw [h0] at h
        injection h with h
        subst h
        exact ⟨_, lookupA_updateA_self _ h0, Or.inr rfl⟩
      · exact ⟨dy, (lookupA_updateA_ne _ hy).trans h, Or.inl rfl⟩

/-- After `Load`, the target descriptor is its old self (up to the live
handle), and its handle is live. -/
theorem loadDesc_lookup_self {st : GState} {sid : Nat} {d : FClassDesc}
    (h : lookupA st.descs sid = some d) :
    ∃ d', lookupA (loadDesc st sid).descs sid = some d' ∧ d'.loaded = true ∧
      (d' = d ∨ d' = { d with loaded := true }) := by
  unfold loadDesc
  rw [h]
  by_cases hl : d.loaded
  · simp only [hl, if_true]
    exact ⟨d, h, hl, Or.inl rfl⟩
  · simp only [hl, if_false]
    exact ⟨_, lookupA_updateA_self _ h, rfl, Or.inr rfl⟩

theorem loadDesc_eq (st : GState) (sid : Nat) :
    loadDesc st sid =
      match lookupA st.descs sid with
      | none => st
      | some d =>
        if d.loaded = true then st
        else { st with descs := updateA (fun dd => { dd with loaded := true }) st.descs sid } :=
  rfl

theorem loadDesc_lookup_ne {st : GState} {sid Y : Nat} (hy : Y ≠ sid) :
    lookupA (loadDesc st sid).descs Y = lookupA st.descs Y := by
  rw [loadDesc_eq]
  cases h0 : lookupA st.descs sid with
  | none => rfl
  | some d =>
    simp only []
    by_cases hl : d.loaded = true
    · rw [if_pos hl]
    · rw [if_neg hl]
      exact lookupA_updateA_ne _ hy

theorem unloadDesc_eq (st : GState) (sid : Nat) :
    unloadDesc st sid =
      match lookupA st.descs sid with
      | none => st
      | some d =>
        if (!d.loaded) = true then st
        else
          { st with
            descs := updateA
              (fun dd => { dd with fields := [], properties := [], functions := []
                                   loaded := false })
              st.descs sid } :=
  rfl

/-- Effect of `UnLoad` on every registry entry: unchanged, or emptied with the
handle dropped; `SuperClasses` in particular survives. -/
theorem unloadDesc_lookup (st : GState) (sid Y : Nat) {dy : FClassDesc}
    (h : lookupA st.descs Y = some dy) :
    ∃ dy', lookupA (unloadDesc st sid).descs Y = some dy' ∧
      (dy' = dy ∨
       dy' = { dy with fields := [], properties := [], functions := [], loaded := false }) := by
  rw [unloadDesc_eq]
  cases h0 : lookupA st.descs sid with
  | none => exact ⟨dy, h, Or.inl rfl⟩
  | some d =>
    simp only []
    by_cases hl : (!d.loaded) = true
    · rw [if_pos hl]
      exact ⟨dy, h, Or.inl rfl⟩
    · rw [if_neg hl]
      by_cases hy : Y = sid
      · subst hy
        rw [h0] at h
        injection h with h
        subst h
        exact ⟨_, lookupA_updateA_self _ h0, Or.inr rfl⟩
      · exact ⟨dy, (lookupA_updateA_ne _ hy).trans h, Or.inl rfl⟩

/-- `UnLoad` of a loaded descriptor empties its three collections and drops
its handle. -/
theorem unloadDesc_self_loaded {st : GState} {sid : Nat} {d : FClassDesc}
    (h : lookupA st.descs sid = some d) (hl : d.loaded = true) :
    lookupA (unloadDesc st sid).descs sid =
      some { d with fields := [], properties := [], functions := [], loaded := false } := by
  rw [unloadDesc_eq]
  simp only [h]
  rw [if_neg (by rw [hl]; exact fun hc => by cases hc)]
  exact lookupA_updateA_self _ h

theorem loadDesc_post_loaded {st : GState} {sid : Nat} {d : FClassDesc}
    (h : lookupA (loadDesc st sid).descs sid = some d) : d.loaded = true := by
  cases h0 : lookupA st.descs sid with
  | none =>
    rw [loadDesc_absent h0, h0] at h
    cases h
  | some d0 =>
    obtain ⟨d', hd', hl, _⟩ := loadDesc_lookup_self h0
    rw [hd'] at h
    injection h with h
    subst h
    exact hl

/-! Lemmas about `ensureDesc` and `registerReflectedType`. -/

theorem ensureDesc_preserve {st : GState} {Y : Nat} {dy : FClassDesc}
    (env : HostEnv) (X : Nat) (h : lookupA st.descs Y = some dy) :
    lookupA (ensureDesc env st X).descs Y = some dy := by
  unfold ensureDesc
  cases h0 : lookupA st.descs X with
  | some d => exact h
  | none =>
    cases h1 : env.find? X with
    | none => exact h
    | some info => exact lookupA_append_of_some _ h

theorem ensureDesc_factory (env : HostEnv) (st : GState) (X : Nat) :
    (ensureDesc env st X).factoryCalls = st.factoryCalls := by
  unfold ensureDesc
  cases h0 : lookupA st.descs X with
  | some d => rfl
  | none => cases h1 : env.find? X <;> rfl

theorem foldl_ensureDesc_preserve {st : GState} {Y : Nat} {dy : FClassDesc}
    (env : HostEnv) (xs : List Nat) (h : lookupA st.descs Y = some dy) :
    lookupA (xs.foldl (fun s x => ensureDesc env s x) st).descs Y = some dy := by
  induction xs generalizing st with
  | nil => exact h
  | cons x xs ih => exact ih (ensureDesc_preserve env x h)

theorem foldl_ensureDesc_factory (env : HostEnv) (xs : List Nat) (st : GState) :
    (xs.foldl (fun s x => ensureDesc env s x) st).factoryCalls = st.factoryCalls := by
  induction xs generalizing st with
  | nil => rfl
  | cons x xs ih => rw [List.foldl_cons, ih, ensureDesc_factory]

theorem registerReflectedType_preserve {st : GState} {Y : Nat} {dy : FClassDesc}
    (env : HostEnv) (X : Nat) (h : lookupA st.descs Y = some dy) :
    lookupA (registerReflectedType env st X).descs Y = some dy := by
  unfold registerReflectedType
  cases h0 : lookupA st.descs X with
  | some d => exact h
  | none => exact ensureDesc_preserve env X (foldl_ensureDesc_preserve env _ h)

theorem registerReflectedType_factory (env : HostEnv) (st : GState) (X : Nat) :
    (registerReflectedType env st X).factoryCalls = st.factoryCalls := by
  unfold registerReflectedType
  cases h0 : lookupA st.descs X with
  | some d => rfl
  | none => rw [ensureDesc_factory, foldl_ensureDesc_factory]

theorem registerReflectedType_noop {st : GState} {X : Nat} {d : FClassDesc}
    (env : HostEnv) (h : lookupA st.descs X = some d) :
    registerReflectedType env st X = st := by
  unfold registerReflectedType
  rw [h]

/-! Step lemmas for `registerField`: one per branch of the source. -/

theorem registerField_succ (env : HostEnv) (fuel : Nat) (st : GState) (sid : Nat)
    (n : String) (q : Nat) :
    registerField env (fuel+1) st sid n q =
      match lookupA (loadDesc st sid).descs sid with
      | none => (loadDesc st sid, none)
      | some d =>
        match lookupA d.fields n with
        | some fd => (loadDesc st sid, some fd)
        | none =>
          match classifyMember env d n with
          | none => (loadDesc st sid, none)
          | some m =>
            match memberOuter m with
            | none => (loadDesc st sid, none)
            | some outerSid =>
              if outerSid ≠ d.structId then
                registerField env fuel (registerReflectedType env (loadDesc st sid) outerSid)
                  outerSid n q
              else
                match m with
                | Member.prop p =>
                  (addLocalProp (loadDesc st sid) sid n
                    { queryClass := q, outerClass := d.structId
                      fieldIndex := (d.properties.length : Int) + 1 } p,
                   some { queryClass := q, outerClass := d.structId
                          fieldIndex := (d.properties.length : Int) + 1 })
                | Member.func f =>
                  (addLocalFunc (loadDesc st sid) sid n
                    { queryClass := q, outerClass := d.structId
                      fieldIndex := -((d.functions.length : Int) + 1) }
                    { func := f
                      defaultParams :=
                        match d.functionCollection with
                        | some fc => lookupA fc n
                        | none => none },
                   some { queryClass := q, outerClass := d.structId
                          fieldIndex := -((d.functions.length : Int) + 1) }) := rfl

/-- Projections of a descriptor that only possibly had its handle loaded. -/
theorem loadFlip_proj {d d' : FClassDesc} (h : d' = d ∨ d' = { d with loaded := true }) :
    d'.fields = d.fields ∧ d'.properties = d.properties ∧ d'.functions = d.functions ∧
    d'.structId = d.structId ∧ d'.bIsClass = d.bIsClass ∧
    d'.bIsScriptStruct = d.bIsScriptStruct ∧ d'.bIsNative = d.bIsNative ∧
    d'.className = d.className ∧ d'.superClasses = d.superClasses ∧
    d'.functionCollection = d.functionCollection := by
  rcases h with h | h <;> subst h <;>
    exact ⟨rfl, rfl, rfl, rfl, rfl, rfl, rfl, rfl, rfl, rfl⟩

/-- Classification only reads the struct identity and the kind flags. -/
theorem classifyMember_congr (env : HostEnv) (n : String) {d d' : FClassDesc}
    (h1 : d'.structId = d.structId) (h2 : d'.bIsClass = d.bIsClass)
    (h3 : d'.bIsScriptStruct = d.bIsScriptStruct) :
    classifyMember env d' n = classifyMember env d n := by
  unfold classifyMember
  rw [h1, h2, h3]

theorem registerField_absent {env : HostEnv} {fuel : Nat} {st : GState} {sid : Nat}
    {n : String} {q : Nat} (h : lookupA st.descs sid = none) :
    registerField env fuel st sid n q = (st, none) := by
  cases fuel with
  | zero => rfl
  | succ fuel =>
    rw [registerField_succ, loadDesc_absent h]
    simp only [h]

theorem registerField_cached {env : HostEnv} {fuel : Nat} {st : GState} {sid : Nat}
    {n : String} {q : Nat} {d : FClassDesc} {fd : FFieldDesc}
    (hd : lookupA st.descs sid = some d) (hhit : lookupA d.fields n = some fd) :
    registerField env (fuel+1) st sid n q = (loadDesc st sid, some fd) := by
  obtain ⟨d', hd', hl, hform⟩ := loadDesc_lookup_self hd
  obtain ⟨hf, _, _, _, _, _, _, _, _, _⟩ := loadFlip_proj hform
  rw [registerField_succ]
  simp only [hd', hf, hhit]

theorem registerField_nofind {env : HostEnv} {fuel : Nat} {st : GState} {sid : Nat}
    {n : String} {q : Nat} {d : FClassDesc}
    (hd : lookupA st.descs sid = some d) (hmiss : lookupA d.fields n = none)
    (hno : classifyMember env d n = none ∨
      ∃ m, classifyMember env d n = some m ∧ memberOuter m = none) :
    registerField env (fuel+1) st sid n q = (loadDesc st sid, none) := by
  obtain ⟨d', hd', hl, hform⟩ := loadDesc_lookup_self hd
  obtain ⟨hf, _, _, hsid, hcls, hss, _, _, _, _⟩ := loadFlip_proj hform
  have hcl' : classifyMember env d' n = classifyMember env d n :=
    classifyMember_congr env n hsid hcls hss
  rw [registerField_succ]
  rcases hno with hno | ⟨m, hm, hout⟩
  · simp only [hd', hf, hmiss, hcl', hno]
  · simp only [hd', hf, hmiss, hcl', hm, hout]

theorem registerField_redirect {env : HostEnv} {fuel : Nat} {st : GState} {sid : Nat}
    {n : String} {q : Nat} {d : FClassDesc} {m : Member} {outerSid : Nat}
    (hd : lookupA st.descs sid = some d) (hmiss : lookupA d.fields n = none)
    (hcl : classifyMember env d n = some m) (hout : memberOuter m = some outerSid)
    (hne : outerSid ≠ d.structId) :
    registerField env (fuel+1) st sid n q =
      registerField env fuel (registerReflectedType env (loadDesc st sid) outerSid)
        outerSid n q := by
  obtain ⟨d', hd', hl, hform⟩ := loadDesc_lookup_self hd
  obtain ⟨hf, _, _, hsid, hcls, hss, _, _, _, _⟩ := loadFlip_proj hform
  have hcl' : classifyMember env d' n = classifyMember env d n :=
    classifyMember_congr env n hsid hcls hss
  rw [registerField_succ]
  simp only [hd', hf, hmiss, hcl', hcl, hout, hsid, ne_eq, hne, not_false_eq_true, if_true]

theorem registerField_local_prop {env : HostEnv} {fuel : Nat} {st : GState} {sid : Nat}
    {n : String} {q : Nat} {d : FClassDesc} {p : FPropertyInfo}
    (hd : lookupA st.descs sid = some d) (hmiss : lookupA d.fields n = none)
    (hcl : classifyMember env d n = some (Member.prop p))
    (hout : p.outer = some d.structId) :
    registerField env (fuel+1) st sid n q =
      (addLocalProp (loadDesc st sid) sid n
        { queryClass := q, outerClass := d.structId
          fieldIndex := (d.properties.length : Int) + 1 } p,
       some { queryClass := q, outerClass := d.structId
              fieldIndex := (d.properties.length : Int) + 1 }) := by
  obtain ⟨d', hd', hl, hform⟩ := loadDesc_lookup_self hd
  obtain ⟨hf, hp, _, hsid, hcls, hss, _, _, _, _⟩ := loadFlip_proj hform
  have hcl' : classifyMember env d' n = classifyMember env d n :=
    classifyMember_congr env n hsid hcls hss
  have hout' : memberOuter (Member.prop p) = some d.structId := hout
  rw [registerField_succ]
  simp only [hd', hf, hmiss, hcl', hcl, hout', hsid, hp, ne_eq, not_true_eq_false, if_false,
    ite_false]

theorem registerField_local_func {env : HostEnv} {fuel : Nat} {st : GState} {sid : Nat}
    {n : String} {q : Nat} {d : FClassDesc} {f : UFunctionInfo}
    (hd : lookupA st.descs sid = some d) (hmiss : lookupA d.fields n = none)
    (hcl : classifyMember env d n = some (Member.func f))
    (hout : f.outer = some d.structId) :
    registerField env (fuel+1) st sid n q =
      (addLocalFunc (loadDesc st sid) sid n
        { queryClass := q, outerClass := d.structId
          fieldIndex := -((d.functions.length : Int) + 1) }
        { func := f
          defaultParams :=
            match d.functionCollection with
            | some fc => lookupA fc n
            | none => none },
       some { queryClass := q, outerClass := d.structId
              fieldIndex := -((d.functions.length : Int) + 1) }) := by
  obtain ⟨d', hd', hl, hform⟩ := loadDesc_lookup_self hd
  obtain ⟨hf, _, hfn, hsid, hcls, hss, _, _, _, hcol⟩ := loadFlip_proj hform
  have hcl' : classifyMember env d' n = classifyMember env d n :=
    classifyMember_congr env n hsid hcls hss
  have hout' : memberOuter (Member.func f) = some d.structId := hout
  rw [registerField_succ]
  simp only [hd', hf, hmiss, hcl', hcl, hout', hsid, hfn, hcol, ne_eq, not_true_eq_false,
    if_false, ite_false]

theorem addLocalProp_descs (st : GState) (sid : Nat) (n : String) (fd : FFieldDesc)
    (p : FPropertyInfo) :
    (addLocalProp st sid n fd p).descs =
      updateA (fun dd => { dd with fields := dd.fields ++ [(n, fd)]
                                   properties := dd.properties ++ [p] }) st.descs sid := rfl

theorem addLocalFunc_descs (st : GState) (sid : Nat) (n : String) (fd : FFieldDesc)
    (fe : FFunctionDesc) :
    (addLocalFunc st sid n fd fe).descs =
      updateA (fun dd => { dd with fields := dd.fields ++ [(n, fd)]
                                   functions := dd.functions ++ [fe] }) st.descs sid := rfl

/-! The evolution relation and the master frame lemma. -/

theorem DescEvol_refl (n : String) (r : Option FFieldDesc) (d : FClassDesc) :
    DescEvol n r d d :=
  ⟨⟨rfl, rfl, rfl, rfl, rfl, rfl, rfl⟩, fun h => h, Or.inl ⟨rfl, rfl, rfl⟩⟩

theorem DescEvol_load {n : String} {r : Option FFieldDesc} {d d' : FClassDesc}
    (h : d' = d ∨ d' = { d with loaded := true }) : DescEvol n r d d' := by
  rcases h with h | h <;> subst h
  · exact DescEvol_refl n r _
  · exact ⟨⟨rfl, rfl, rfl, rfl, rfl, rfl, rfl⟩, fun _ => rfl, Or.inl ⟨rfl, rfl, rfl⟩⟩

theorem DescEvol_load_trans {n : String} {r : Option FFieldDesc} {d0 d1 d2 : FClassDesc}
    (h : d1 = d0 ∨ d1 = { d0 with loaded := true }) (he : DescEvol n r d1 d2) :
    DescEvol n r d0 d2 := by
  rcases h with h | h <;> subst h
  · exact he
  · exact ⟨he.1, fun _ => he.2.1 rfl, he.2.2⟩

/-- Master frame lemma: one `RegisterField(n, q)` call evolves every
pre-existing registry entry by `DescEvol` (at most the single registered entry
is added, nothing else changes but a handle coming alive), and a `none` result
invokes no descriptor factory. -/
theorem registerField_evol (env : HostEnv) (n : String) (q : Nat) :
    ∀ (fuel : Nat) (st : GState) (sid : Nat) (st1 : GState) (r : Option FFieldDesc),
      registerField env fuel st sid n q = (st1, r) →
      (∀ Y dy, lookupA st.descs Y = some dy →
        ∃ dy', lookupA st1.descs Y = some dy' ∧ DescEvol n r dy dy') ∧
      (r = none → st1.factoryCalls = st.factoryCalls) := by
  intro fuel
  induction fuel with
  | zero =>
    intro st sid st1 r h
    rw [show registerField env 0 st sid n q = (st, none) from rfl] at h
    injection h with h1 h2
    subst h1
    subst h2
    exact ⟨fun Y dy hy => ⟨dy, hy, DescEvol_refl n none dy⟩, fun _ => rfl⟩
  | succ fuel ih =>
    intro st sid st1 r h
    cases h0 : lookupA st.descs sid with
    | none =>
      rw [registerField_absent h0] at h
      injection h with h1 h2
      subst h1
      subst h2
      exact ⟨fun Y dy hy => ⟨dy, hy, DescEvol_refl n none dy⟩, fun _ => rfl⟩
    | some d =>
      cases h2 : lookupA d.fields n with
      | some fd0 =>
        rw [registerField_cached h0 h2] at h
        injection h with h1 hr
        subst h1
        subst hr
        refine ⟨fun Y dy hy => ?_, fun hc => by rw [loadDesc_factory]⟩
        obtain ⟨dy', hdy', hform⟩ := loadDesc_lookup st sid Y hy
        exact ⟨dy', hdy', DescEvol_load hform⟩
      | none =>
        cases h3 : classifyMember env d n with
        | none =>
          rw [registerField_nofind h0 h2 (Or.inl h3)] at h
          injection h with h1 hr
          subst h1
          subst hr
          refine ⟨fun Y dy hy => ?_, fun _ => by rw [loadDesc_factory]⟩
          obtain ⟨dy', hdy', hform⟩ := loadDesc_lookup st sid Y hy
          exact ⟨dy', hdy', DescEvol_load hform⟩
        | some m =>
          cases h4 : memberOuter m with
          | none =>
            rw [registerField_nofind h0 h2 (Or.inr ⟨m, h3, h4⟩)] at h
            injection h with h1 hr
            subst h1
            subst hr
            refine ⟨fun Y dy hy => ?_, fun _ => by rw [loadDesc_factory]⟩
            obtain ⟨dy', hdy', hform⟩ := loadDesc_lookup st sid Y hy
            exact ⟨dy', hdy', DescEvol_load hform⟩
          | some O =>
            by_cases h5 : O = d.structId
            · cases m with
              | prop p =>
                have hout : p.outer = some d.structId := h5 ▸ h4
                rw [registerField_local_prop h0 h2 h3 hout] at h
                injection h with h1 hr
                subst h1
                subst hr
                refine ⟨fun Y dy hy => ?_, fun hc => Option.noConfusion hc⟩
                obtain ⟨dy1, hdy1, hform1⟩ := loadDesc_lookup st sid Y hy
                obtain ⟨hf1, hp1, hfn1, hsid1, hcls1, hss1, hnat1, hcn1, hsc1, hcol1⟩ :=
                  loadFlip_proj hform1
                have hmono : dy.loaded = true → dy1.loaded = true := by
                  rcases hform1 with hh | hh
                  · subst hh; exact fun hx => hx
                  · subst hh; exact fun _ => rfl
                by_cases hY : Y = sid
                · subst hY
                  rw [addLocalProp_descs]
                  exact ⟨_, lookupA_updateA_self _ hdy1,
                    ⟨hsid1, hcn1, hsc1, hcls1, hss1, hnat1, hcol1⟩, hmono,
                    Or.inr ⟨_, rfl, by rw [hf1], Or.inl ⟨p, by rw [hp1], by rw [hfn1]⟩⟩⟩
                · rw [addLocalProp_descs, lookupA_updateA_ne _ hY]
                  exact ⟨dy1, hdy1, DescEvol_load hform1⟩
              | func f =>
                have hout : f.outer = some d.structId := h5 ▸ h4
                rw [registerField_local_func h0 h2 h3 hout] at h
                injection h with h1 hr
                subst h1
                subst hr
                refine ⟨fun Y dy hy => ?_, fun hc => Option.noConfusion hc⟩
                obtain ⟨dy1, hdy1, hform1⟩ := loadDesc_lookup st sid Y hy
                obtain ⟨hf1, hp1, hfn1, hsid1, hcls1, hss1, hnat1, hcn1, hsc1, hcol1⟩ :=
                  loadFlip_proj hform1
                have hmono : dy.loaded = true → dy1.loaded = true := by
                  rcases hform1 with hh | hh
                  · subst hh; exact fun hx => hx
                  · subst hh; exact fun _ => rfl
                by_cases hY : Y = sid
                · subst hY
                  rw [addLocalFunc_descs]
                  exact ⟨_, lookupA_updateA_self _ hdy1,
                    ⟨hsid1, hcn1, hsc1, hcls1, hss1, hnat1, hcol1⟩, hmono,
                    Or.inr ⟨_, rfl, by rw [hf1], Or.inr ⟨by rw [hp1], _, by rw [hfn1]⟩⟩⟩
                · rw [addLocalFunc_descs, lookupA_updateA_ne _ hY]
                  exact ⟨dy1, hdy1, DescEvol_load hform1⟩
            · rw [registerField_redirect h0 h2 h3 h4 h5] at h
              have IH := ih (registerReflectedType env (loadDesc st sid) O) O st1 r h
              refine ⟨fun Y dy hy => ?_, fun hc => ?_⟩
              · obtain ⟨dy1, hdy1, hform1⟩ := loadDesc_lookup st sid Y hy
                have hdy2 := registerReflectedType_preserve env O hdy1
                obtain ⟨dy', hdy', hevol⟩ := IH.1 Y dy1 hdy2
                exact ⟨dy', hdy', DescEvol_load_trans hform1 hevol⟩
              · rw [IH.2 hc, registerReflectedType_factory, loadDesc_factory]

/-! Preservation of the declaring-type invariant. -/

theorem loadDesc_localInv {st : GState} (sid : Nat) (h : LocalInv st) :
    LocalInv (loadDesc st sid) := by
  unfold loadDesc
  cases h0 : lookupA st.descs sid with
  | none => exact h
  | some d =>
    show LocalInv (if d.loaded = true then st
      else { st with descs := updateA (fun dd => { dd with loaded := true }) st.descs sid })
    by_cases hl : d.loaded = true
    · rw [if_pos hl]
      exact h
    · rw [if_neg hl]
      intro e he
      exact forall_mem_updateA (f := fun dd => { dd with loaded := true }) h
        (fun v hv => h (sid, v) hv) e he

theorem ensureDesc_localInv (env : HostEnv) {st : GState} (X : Nat) (h : LocalInv st) :
    LocalInv (ensureDesc env st X) := by
  unfold ensureDesc
  cases h0 : lookupA st.descs X with
  | some d => exact h
  | none =>
    cases h1 : env.find? X with
    | none => exact h
    | some info =>
      intro e he
      rcases List.mem_append.mp he with he | he
      · exact h e he
      · rcases List.mem_singleton.mp he with rfl
        exact ⟨rfl, fun x hx => absurd hx (List.not_mem_nil x),
          fun x hx => absurd hx (List.not_mem_nil x),
          fun x hx => absurd hx (List.not_mem_nil x)⟩

theorem foldl_ensureDesc_localInv (env : HostEnv) (xs : List Nat) {st : GState}
    (h : LocalInv st) : LocalInv (xs.foldl (fun s x => ensureDesc env s x) st) := by
  induction xs generalizing st with
  | nil => exact h
  | cons x xs ih => exact ih (ensureDesc_localInv env x h)

theorem registerReflectedType_localInv (env : HostEnv) {st : GState} (X : Nat)
    (h : LocalInv st) : LocalInv (registerReflectedType env st X) := by
  unfold registerReflectedType
  cases h0 : lookupA st.descs X with
  | some d => exact h
  | none => exact ensureDesc_localInv env X (foldl_ensureDesc_localInv env _ h)

/-- `RegisterField` preserves the declaring-type invariant: it only ever
creates a property or function descriptor on the descriptor whose underlying
type is the member's own outer type. -/
theorem registerField_localInv (env : HostEnv) (n : String) (q : Nat) :
    ∀ (fuel : Nat) (st : GState) (sid : Nat),
      LocalInv st → LocalInv (registerField env fuel st sid n q).1 := by
  intro fuel
  induction fuel with
  | zero => intro st sid h; exact h
  | succ fuel ih =>
    intro st sid h
    cases h0 : lookupA st.descs sid with
    | none =>
      rw [registerField_absent h0]
      exact h
    | some d =>
      have hkey : d.structId = sid := (h (sid, d) (lookupA_mem h0)).1
      cases h2 : lookupA d.fields n with
      | some fd0 =>
        rw [registerField_cached h0 h2]
        exact loadDesc_localInv sid h
      | none =>
        cases h3 : classifyMember env d n with
        | none =>
          rw [registerField_nofind h0 h2 (Or.inl h3)]
          exact loadDesc_localInv sid h
        | some m =>
          cases h4 : memberOuter m with
          | none =>
            rw [registerField_nofind h0 h2 (Or.inr ⟨m, h3, h4⟩)]
            exact loadDesc_localInv sid h
          | some O =>
            by_cases h5 : O = d.structId
            · cases m with
              | prop p =>
                have hout : p.outer = some d.structId := h5 ▸ h4
                rw [registerField_local_prop h0 h2 h3 hout]
                have hL := loadDesc_localInv sid h
                intro e he
                rw [addLocalProp_descs] at he
                refine forall_mem_updateA hL (fun v hv => ?_) e he
                obtain ⟨hv1, hv2, hv3, hv4⟩ := hL (sid, v) hv
                refine ⟨hv1, ?_, ?_, hv4⟩
                · intro x hx
                  rcases List.mem_append.mp hx with hx | hx
                  · exact hv2 x hx
                  · rcases List.mem_singleton.mp hx with rfl
                    exact hkey
                · intro x hx
                  rcases List.mem_append.mp hx with hx | hx
                  · exact hv3 x hx
                  · rcases List.mem_singleton.mp hx with rfl
                    rw [hout, hkey]
              | func f =>
                have hout : f.outer = some d.structId := h5 ▸ h4
                rw [registerField_local_func h0 h2 h3 hout]
                have hL := loadDesc_localInv sid h
                intro e he
                rw [addLocalFunc_descs] at he
                refine forall_mem_updateA hL (fun v hv => ?_) e he
                obtain ⟨hv1, hv2, hv3, hv4⟩ := hL (sid, v) hv
                refine ⟨hv1, ?_, hv3, ?_⟩
                · intro x hx
                  rcases List.mem_append.mp hx with hx | hx
                  · exact hv2 x hx
                  · rcases List.mem_singleton.mp hx with rfl
                    exact hkey
                · intro x hx
                  rcases List.mem_append.mp hx with hx | hx
                  · exact hv4 x hx
                  · rcases List.mem_singleton.mp hx with rfl
                    rw [show ({ func := f, defaultParams :=
                          match d.functionCollection with
                          | some fc => lookupA fc n
                          | none => none } : FFunctionDesc).func = f from rfl, hout, hkey]
            · rw [registerField_redirect h0 h2 h3 h4 h5]
              exact ih _ O (registerReflectedType_localInv env O (loadDesc_localInv sid h))

/-! Idempotence of `RegisterField`. -/

/-- A successful `RegisterField(n, q)` call is idempotent: repeating it on the
resulting state returns the identical descriptor and leaves the state exactly
as it was (so no entry is appended anywhere and no factory runs). -/
theorem registerField_idem (env : HostEnv) (n : String) (q : Nat) :
    ∀ (fuel : Nat) (st : GState) (sid : Nat) (st1 : GState) (fd : FFieldDesc),
      registerField env fuel st sid n q = (st1, some fd) →
      registerField env fuel st1 sid n q = (st1, some fd) := by
  intro fuel
  induction fuel with
  | zero =>
    intro st sid st1 fd h
    rw [show registerField env 0 st sid n q = (st, none) from rfl] at h
    injection h with h1 h2
    exact Option.noConfusion h2
  | succ fuel ih =>
    intro st sid st1 fd h
    cases h0 : lookupA st.descs sid with
    | none =>
      rw [registerField_absent h0] at h
      injection h with h1 h2
      exact Option.noConfusion h2
    | some d =>
      cases h2 : lookupA d.fields n with
      | some fd0 =>
        rw [registerField_cached h0 h2] at h
        injection h with h1 hr
        injection hr with hr
        subst hr
        subst h1
        obtain ⟨d', hd', hl, hform⟩ := loadDesc_lookup_self h0
        have hf : d'.fields = d.fields := (loadFlip_proj hform).1
        rw [registerField_cached hd' (show lookupA d'.fields n = some fd0 by rw [hf]; exact h2),
          loadDesc_noop hd' hl]
      | none =>
        cases h3 : classifyMember env d n with
        | none =>
          rw [registerField_nofind h0 h2 (Or.inl h3)] at h
          injection h with h1 h2
          exact Option.noConfusion h2
        | some m =>
          cases h4 : memberOuter m with
          | none =>
            rw [registerField_nofind h0 h2 (Or.inr ⟨m, h3, h4⟩)] at h
            injection h with h1 h2
            exact Option.noConfusion h2
          | some O =>
            by_cases h5 : O = d.structId
            · cases m with
              | prop p =>
                have hout : p.outer = some d.structId := h5 ▸ h4
                rw [registerField_local_prop h0 h2 h3 hout] at h
                injection h with h1 hr
                injection hr with hr
                subst hr
                subst h1
                obtain ⟨d', hd', hl, hform⟩ := loadDesc_lookup_self h0
                have hf : d'.fields = d.fields := (loadFlip_proj hform).1
                have hmiss' : lookupA d'.fields n = none := by rw [hf]; exact h2
                obtain ⟨dX, hdX, hXl, hXf⟩ :
                    ∃ dX, lookupA (addLocalProp (loadDesc st sid) sid n
                      { queryClass := q, outerClass := d.structId
                        fieldIndex := (d.properties.length : Int) + 1 } p).descs sid =
                        some dX ∧
                      dX.loaded = d'.loaded ∧
                      dX.fields = d'.fields ++
                        [(n, { queryClass := q, outerClass := d.structId
                               fieldIndex := (d.properties.length : Int) + 1 })] := by
                  rw [addLocalProp_descs]
                  exact ⟨_, lookupA_updateA_self _ hd', rfl, rfl⟩
                have hXl' : dX.loaded = true := hXl.trans hl
                have hhit : lookupA dX.fields n =
                    some { queryClass := q, outerClass := d.structId
                           fieldIndex := (d.properties.length : Int) + 1 } := by
                  rw [hXf, lookupA_append_of_none _ hmiss']
                  exact lookupA_cons_self
                rw [registerField_cached hdX hhit, loadDesc_noop hdX hXl']
              | func f =>
                have hout : f.outer = some d.structId := h5 ▸ h4
                rw [registerField_local_func h0 h2 h3 hout] at h
                injection h with h1 hr
                injection hr with hr
                subst hr
                subst h1
                obtain ⟨d', hd', hl, hform⟩ := loadDesc_lookup_self h0
                have hf : d'.fields = d.fields := (loadFlip_proj hform).1
                have hmiss' : lookupA d'.fields n = none := by rw [hf]; exact h2
                obtain ⟨dX, hdX, hXl, hXf⟩ :
                    ∃ dX, lookupA (addLocalFunc (loadDesc st sid) sid n
                      { queryClass := q, outerClass := d.structId
                        fieldIndex := -((d.functions.length : Int) + 1) }
                      { func := f
                        defaultParams :=
                          match d.functionCollection with
                          | some fc => lookupA fc n
                          | none => none }).descs sid = some dX ∧
                      dX.loaded = d'.loaded ∧
                      dX.fields = d'.fields ++
                        [(n, { queryClass := q, outerClass := d.structId
                               fieldIndex := -((d.functions.length : Int) + 1) })] := by
                  rw [addLocalFunc_descs]
                  exact ⟨_, lookupA_updateA_self _ hd', rfl, rfl⟩
                have hXl' : dX.loaded = true := hXl.trans hl
                have hhit : lookupA dX.fields n =
                    some { queryClass := q, outerClass := d.structId
                           fieldIndex := -((d.functions.length : Int) + 1) } := by
                  rw [hXf, lookupA_append_of_none _ hmiss']
                  exact lookupA_cons_self
                rw [registerField_cached hdX hhit, loadDesc_noop hdX hXl']
            · rw [registerField_redirect h0 h2 h3 h4 h5] at h
              cases h6 : lookupA (registerReflectedType env (loadDesc st sid) O).descs O with
              | none =>
                rw [registerField_absent h6] at h
                injection h with h1 hB
                exact Option.noConfusion hB
              | some dO =>
                have master := registerField_evol env n q fuel _ O st1 (some fd) h
                obtain ⟨d', hd', hl, hform⟩ := loadDesc_lookup_self h0
                obtain ⟨hf, _, _, hsid, hcls, hss, _, _, _, _⟩ := loadFlip_proj hform
                have hd'' := registerReflectedType_preserve env O hd'
                obtain ⟨d1, hd1, hevol⟩ := master.1 sid d' hd''
                obtain ⟨dO1, hdO1, _⟩ := master.1 O dO h6
                obtain ⟨⟨hc1, hc2, hc3, hc4, hc5, hc6, hc7⟩, hcmono, hccont⟩ := hevol
                have hl1 : d1.loaded = true := hcmono hl
                have hsid1 : d1.structId = d.structId := hc1.trans hsid
                have hcls1 : d1.bIsClass = d.bIsClass := hc4.trans hcls
                have hss1 : d1.bIsScriptStruct = d.bIsScriptStruct := hc5.trans hss
                have hcl1 : classifyMember env d1 n = some m := by
                  rw [classifyMember_congr env n hsid1 hcls1 hss1]
                  exact h3
                have hne1 : O ≠ d1.structId := fun hc => h5 (hc.trans hsid1)
                rcases hccont with hsame | ⟨fdy, hfy, happ⟩
                · have hm1 : lookupA d1.fields n = none := by
                    rw [hsame.1, hf]
                    exact h2
                  rw [registerField_redirect hd1 hm1 hcl1 h4 hne1, loadDesc_noop hd1 hl1,
                    registerReflectedType_noop env hdO1]
                  exact ih _ O st1 fd h
                · injection hfy with hfy
                  subst hfy
                  have hmiss' : lookupA d'.fields n = none := by rw [hf]; exact h2
                  have hfin : lookupA d1.fields n = some fd := by
                    rw [happ.1, lookupA_append_of_none _ hmiss']
                    exact lookupA_cons_self
                  rw [registerField_cached hd1 hfin, loadDesc_noop hd1 hl1]

/-! The claims. -/

/-- C2: calling `RegisterField(name, Q)` twice in succession returns the
identical `FFieldDesc` both times; the second call leaves the state exactly as
it was, so `Properties`/`Functions` gain no entry and no descriptor factory is
invoked (the factory-invocation count is unchanged). -/
theorem C2_idempotent_registration (env : HostEnv) (fuel : Nat) (st st1 : GState)
    (sid : Nat) (n : String) (q : Nat) (fd : FFieldDesc)
    (h : registerField env fuel st sid n q = (st1, some fd)) :
    registerField env fuel st1 sid n q = (st1, some fd) ∧
    (registerField env fuel st1 sid n q).1.factoryCalls = st1.factoryCalls ∧
    (∀ Y dy, lookupA st1.descs Y = some dy →
      ∃ dy', lookupA (registerField env fuel st1 sid n q).1.descs Y = some dy' ∧
        dy'.properties = dy.properties ∧ dy'.functions = dy.functions) := by
  have hi := registerField_idem env n q fuel st sid st1 fd h
  exact ⟨hi, by rw [hi], fun Y dy hy => ⟨dy, by rw [hi]; exact hy, rfl, rfl⟩⟩

/-- C6: when the classification of a name finds neither a property nor a
function (nor a recovery match), or finds a member whose outer container is
not a struct, `RegisterField` returns the absent result with the state
untouched; no error path exists (the embedding is total). -/
theorem C6_negative_lookup_is_absent (env : HostEnv) (fuel : Nat) (st : GState)
    (sid : Nat) (n : String) (q : Nat) (d : FClassDesc)
    (hd : lookupA st.descs sid = some d) (hload : d.loaded = true)
    (hmiss : lookupA d.fields n = none)
    (hno : classifyMember env d n = none ∨
      ∃ m, classifyMember env d n = some m ∧ memberOuter m = none) :
    registerField env (fuel + 1) st sid n q = (st, none) := by
  have hstep := @registerField_nofind env fuel st sid n q d hd hmiss hno
  rw [loadDesc_noop hd hload] at hstep
  exact hstep

/-- C8: `FindField` triggers `Load` but registers nothing: it returns exactly
the cached `Fields` lookup, the descriptor ends up loaded, and `Fields`,
`Properties` and `Functions` of every descriptor are unchanged (and no factory
is invoked). -/
theorem C8_findField_is_lookup_only (st : GState) (sid : Nat) (n : String) (d : FClassDesc)
    (hd : lookupA st.descs sid = some d) :
    (findField st sid n).2 = lookupA d.fields n ∧
    (∃ d', lookupA (findField st sid n).1.descs sid = some d' ∧ d'.loaded = true) ∧
    (findField st sid n).1.factoryCalls = st.factoryCalls ∧
    (∀ Y dy, lookupA st.descs Y = some dy →
      ∃ dy', lookupA (findField st sid n).1.descs Y = some dy' ∧
        dy'.fields = dy.fields ∧ dy'.properties = dy.properties ∧
        dy'.functions = dy.functions) := by
  obtain ⟨d', hd', hl, hform⟩ := loadDesc_lookup_self hd
  obtain ⟨hf, _, _, _, _, _, _, _, _, _⟩ := loadFlip_proj hform
  have hunfold : findField st sid n = (loadDesc st sid, lookupA d'.fields n) := by
    unfold findField
    simp only [hd']
  rw [hunfold]
  refine ⟨?_, ⟨d', hd', hl⟩, loadDesc_factory st sid, fun Y dy hy => ?_⟩
  · show lookupA d'.fields n = lookupA d.fields n
    rw [hf]
  · obtain ⟨dy', hdy', hformy⟩ := loadDesc_lookup st sid Y hy
    obtain ⟨hfy, hpy, hfny, _, _, _, _, _, _, _⟩ := loadFlip_proj hformy
    exact ⟨dy', hdy', hfy, hpy, hfny⟩

/-- C9: when `RegisterField` returns absent, every previously existing
descriptor keeps its `Fields`, `Properties` and `Functions` exactly (only a
handle may have been loaded), the factory count is unchanged, and the miss is
not cached: the queried name is still absent from the descriptor's `Fields`,
so a later call re-runs the full classification. -/
theorem C9_failed_registration_no_effect (env : HostEnv) (fuel : Nat) (st st1 : GState)
    (sid : Nat) (n : String) (q : Nat)
    (h : registerField env fuel st sid n q = (st1, none)) :
    st1.factoryCalls = st.factoryCalls ∧
    (∀ Y dy, lookupA st.descs Y = some dy →
      ∃ dy', lookupA st1.descs Y = some dy' ∧ dy'.fields = dy.fields ∧
        dy'.properties = dy.properties ∧ dy'.functions = dy.functions ∧
        dy'.structId = dy.structId ∧ dy'.superClasses = dy.superClasses) ∧
    (∀ d0, lookupA st.descs sid = some d0 → lookupA d0.fields n = none →
      ∃ d1, lookupA st1.descs sid = some d1 ∧ lookupA d1.fields n = none) := by
  have master := registerField_evol env n q fuel st sid st1 none h
  refine ⟨master.2 rfl, fun Y dy hy => ?_, fun d0 h0 hm0 => ?_⟩
  · obtain ⟨dy', hdy', hevol⟩ := master.1 Y dy hy
    rcases hevol.2.2 with hsame | ⟨fd, hfd, _⟩
    · exact ⟨dy', hdy', hsame.1, hsame.2.1, hsame.2.2, hevol.1.1, hevol.1.2.2.1⟩
    · exact Option.noConfusion hfd
  · obtain ⟨d1, hd1, hevol⟩ := master.1 sid d0 h0
    rcases hevol.2.2 with hsame | ⟨fd, hfd, _⟩
    · refine ⟨d1, hd1, ?_⟩
      rw [hsame.1]
      exact hm0
    · exact Option.noConfusion hfd

/-- C10: `GetInheritanceChain` appends to the array it is given: the array
afterwards is the input followed by this descriptor followed by its
`SuperClasses`. -/
theorem C10_getInheritanceChain_appends (d : FClassDesc) (s : List Nat) :
    getInheritanceChain d s = s ++ [d.structId] ++ d.superClasses := rfl

/-- C1: registering through a derived descriptor a member that
`FindPropertyByName` resolves to a property declared on ancestor `A` stores
the `FFieldDesc` in `A`'s `Fields` (the derived `Fields` is unchanged and
still lacks the name), the returned descriptor's declaring class
(`OuterClass`) is `A` and its originating query class is the `queryClass`
passed through the redirection; and the declaring-type invariant — no
descriptor holds an entry for a member whose outer is not its own type — is
preserved. -/
theorem C1_redirect_stores_on_declaring_class (env : HostEnv) (fuel : Nat) (st : GState)
    (sid A : Nat) (n : String) (q : Nat) (dD dA : FClassDesc) (p pA : FPropertyInfo)
    (hinv : LocalInv st)
    (hD : lookupA st.descs sid = some dD) (hDload : dD.loaded = true)
    (hA : lookupA st.descs A = some dA)
    (hDmiss : lookupA dD.fields n = none) (hAmiss : lookupA dA.fields n = none)
    (hfind : findPropertyByName env dD.structId n = some p)
    (houter : p.outer = some A) (hne : A ≠ dD.structId)
    (hfindA : findPropertyByName env dA.structId n = some pA)
    (houterA : pA.outer = some dA.structId) :
    ∃ st1 fd, registerField env (fuel + 2) st sid n q = (st1, some fd) ∧
      fd.outerClass = A ∧ fd.queryClass = q ∧
      (∃ dA1, lookupA st1.descs A = some dA1 ∧ lookupA dA1.fields n = some fd ∧
        dA1.properties = dA.properties ++ [pA]) ∧
      (∃ dD1, lookupA st1.descs sid = some dD1 ∧ dD1.fields = dD.fields ∧
        lookupA dD1.fields n = none) ∧
      LocalInv st1 := by
  have hkeyD : dD.structId = sid := (hinv (sid, dD) (lookupA_mem hD)).1
  have hkeyA : dA.structId = A := (hinv (A, dA) (lookupA_mem hA)).1
  have hAneSid : A ≠ sid := fun hc => hne (hc.trans hkeyD.symm)
  have hclD : classifyMember env dD n = some (Member.prop p) := by
    unfold classifyMember
    rw [hfind]
  have hstep1 := @registerField_redirect env (fuel + 1) st sid n q dD (Member.prop p) A
    hD hDmiss hclD houter hne
  rw [loadDesc_noop hD hDload, registerReflectedType_noop env hA] at hstep1
  have hclA : classifyMember env dA n = some (Member.prop pA) := by
    unfold classifyMember
    rw [hfindA]
  have hstep2 := @registerField_local_prop env fuel st A n q dA pA hA hAmiss hclA houterA
  have hcall := hstep1.trans hstep2
  obtain ⟨dA', hdA', hlA, hformA⟩ := loadDesc_lookup_self hA
  obtain ⟨hfA, hpA, _, _, _, _, _, _, _, _⟩ := loadFlip_proj hformA
  have hmissA' : lookupA dA'.fields n = none := by
    rw [hfA]
    exact hAmiss
  obtain ⟨dX, hdX, hXf, hXp⟩ :
      ∃ dX, lookupA (addLocalProp (loadDesc st A) A n
        { queryClass := q, outerClass := dA.structId
          fieldIndex := (dA.properties.length : Int) + 1 } pA).descs A = some dX ∧
        dX.fields = dA'.fields ++
          [(n, { queryClass := q, outerClass := dA.structId
                 fieldIndex := (dA.properties.length : Int) + 1 })] ∧
        dX.properties = dA'.properties ++ [pA] := by
    rw [addLocalProp_descs]
    exact ⟨_, lookupA_updateA_self _ hdA', rfl, rfl⟩
  refine ⟨_, _, hcall, hkeyA, rfl, ⟨dX, hdX, ?_, ?_⟩, ⟨dD, ?_, rfl, hDmiss⟩, ?_⟩
  · rw [hXf, lookupA_append_of_none _ hmissA']
    exact lookupA_cons_self
  · rw [hXp, hpA]
  · rw [addLocalProp_descs, lookupA_updateA_ne _ (fun hc => hAneSid hc.symm),
      loadDesc_lookup_ne (fun hc => hAneSid hc.symm)]
    exact hD
  · have hres := registerField_localInv env n q (fuel + 2) st sid hinv
    rw [hcall] at hres
    exact hres

/-- C3: a successful local registration returns a field index that is
strictly positive for a property and strictly negative for a function, never
zero, and whose magnitude minus one is the position at which the new
property/function descriptor was appended to the declaring class's
`Properties` or `Functions`. -/
theorem C3_index_sign_encoding (env : HostEnv) (fuel : Nat) (st : GState)
    (sid : Nat) (n : String) (q : Nat) (d : FClassDesc) (m : Member)
    (hd : lookupA st.descs sid = some d) (hload : d.loaded = true)
    (hmiss : lookupA d.fields n = none)
    (hcl : classifyMember env d n = some m) (hout : memberOuter m = some d.structId) :
    ∃ st1 fd, registerField env (fuel + 1) st sid n q = (st1, some fd) ∧
      fd.fieldIndex ≠ 0 ∧ fd.queryClass = q ∧ fd.outerClass = d.structId ∧
      ∃ d1, lookupA st1.descs sid = some d1 ∧ lookupA d1.fields n = some fd ∧
        ((∃ p, m = Member.prop p ∧ 0 < fd.fieldIndex ∧
          fd.fieldIndex.natAbs - 1 = d.properties.length ∧
          d1.properties = d.properties ++ [p] ∧ d1.functions = d.functions) ∨
         (∃ f, m = Member.func f ∧ fd.fieldIndex < 0 ∧
          fd.fieldIndex.natAbs - 1 = d.functions.length ∧
          d1.properties = d.properties ∧
          ∃ fe, d1.functions = d.functions ++ [fe] ∧ fe.func = f)) := by
  cases m with
  | prop p =>
    have hstep := @registerField_local_prop env fuel st sid n q d p hd hmiss hcl hout
    rw [loadDesc_noop hd hload] at hstep
    obtain ⟨dX, hdX, hXf, hXp, hXfn⟩ :
        ∃ dX, lookupA (addLocalProp st sid n
          { queryClass := q, outerClass := d.structId
            fieldIndex := (d.properties.length : Int) + 1 } p).descs sid = some dX ∧
          dX.fields = d.fields ++
            [(n, { queryClass := q, outerClass := d.structId
                   fieldIndex := (d.properties.length : Int) + 1 })] ∧
          dX.properties = d.properties ++ [p] ∧ dX.functions = d.functions := by
      rw [addLocalProp_descs]
      exact ⟨_, lookupA_updateA_self _ hd, rfl, rfl, rfl⟩
    refine ⟨_, _, hstep, ?_, rfl, rfl, dX, hdX, ?_, Or.inl ⟨p, rfl, ?_, ?_, hXp, hXfn⟩⟩
    · show ((d.properties.length : Int) + 1) ≠ 0
      omega
    · rw [hXf, lookupA_append_of_none _ hmiss]
      exact lookupA_cons_self
    · show (0 : Int) < (d.properties.length : Int) + 1
      omega
    · show ((d.properties.length : Int) + 1).natAbs - 1 = d.properties.length
      omega
  | func f =>
    have hstep := @registerField_local_func env fuel st sid n q d f hd hmiss hcl hout
    rw [loadDesc_noop hd hload] at hstep
    obtain ⟨dX, hdX, hXf, hXp, hXfn⟩ :
        ∃ dX, lookupA (addLocalFunc st sid n
          { queryClass := q, outerClass := d.structId
            fieldIndex := -((d.functions.length : Int) + 1) }
          { func := f
            defaultParams :=
              match d.functionCollection with
              | some fc => lookupA fc n
              | none => none }).descs sid = some dX ∧
          dX.fields = d.fields ++
            [(n, { queryClass := q, outerClass := d.structId
                   fieldIndex := -((d.functions.length : Int) + 1) })] ∧
          dX.properties = d.properties ∧
          dX.functions = d.functions ++
            [{ func := f
               defaultParams :=
                 match d.functionCollection with
                 | some fc => lookupA fc n
                 | none => none }] := by
      rw [addLocalFunc_descs]
      exact ⟨_, lookupA_updateA_self _ hd, rfl, rfl, rfl⟩
    refine ⟨_, _, hstep, ?_, rfl, rfl, dX, hdX, ?_,
      Or.inr ⟨f, rfl, ?_, ?_, hXp, _, hXfn, rfl⟩⟩
    · show (-((d.functions.length : Int) + 1)) ≠ 0
      omega
    · rw [hXf, lookupA_append_of_none _ hmiss]
      exact lookupA_cons_self
    · show (-((d.functions.length : Int) + 1)) < 0
      omega
    · show (-((d.functions.length : Int) + 1)).natAbs - 1 = d.functions.length
      omega

/-- C5: after `Load(); UnLoad(); Load()` the descriptor's `Fields` is empty
(every previously registered name is absent), `Properties` and `Functions` are
empty, the handle is live again, and `SuperClasses` is identical across the
whole cycle; moreover neither `Load` nor `UnLoad` ever changes any
descriptor's `SuperClasses`. -/
theorem C5_load_unload_roundtrip (st : GState) (sid : Nat) (d : FClassDesc)
    (hd : lookupA st.descs sid = some d) :
    (∃ d3, lookupA (loadDesc (unloadDesc (loadDesc st sid) sid) sid).descs sid = some d3 ∧
      d3.fields = [] ∧ (∀ n, lookupA d3.fields n = none) ∧ d3.properties = [] ∧
      d3.functions = [] ∧ d3.loaded = true ∧ d3.superClasses = d.superClasses) ∧
    (∀ st' sid' Y dy, lookupA st'.descs Y = some dy →
      ∃ dy', lookupA (loadDesc st' sid').descs Y = some dy' ∧
        dy'.superClasses = dy.superClasses) ∧
    (∀ st' sid' Y dy, lookupA st'.descs Y = some dy →
      ∃ dy', lookupA (unloadDesc st' sid').descs Y = some dy' ∧
        dy'.superClasses = dy.superClasses) := by
  refine ⟨?_, fun st' sid' Y dy hy => ?_, fun st' sid' Y dy hy => ?_⟩
  · obtain ⟨d1, hd1, hl1, hform1⟩ := loadDesc_lookup_self hd
    obtain ⟨_, _, _, _, _, _, _, _, hsc1, _⟩ := loadFlip_proj hform1
    have h2 := unloadDesc_self_loaded hd1 hl1
    obtain ⟨d3, hd3, hl3, hform3⟩ := loadDesc_lookup_self h2
    obtain ⟨hf3, hp3, hfn3, _, _, _, _, _, hsc3, _⟩ := loadFlip_proj hform3
    refine ⟨d3, hd3, ?_, ?_, ?_, ?_, hl3, ?_⟩
    · rw [hf3]
    · intro n0
      rw [hf3]
      rfl
    · rw [hp3]
    · rw [hfn3]
    · rw [hsc3]
      exact hsc1
  · obtain ⟨dy', hdy', hform⟩ := loadDesc_lookup st' sid' Y hy
    obtain ⟨_, _, _, _, _, _, _, _, hsc, _⟩ := loadFlip_proj hform
    exact ⟨dy', hdy', hsc⟩
  · obtain ⟨dy', hdy', hform⟩ := unloadDesc_lookup st' sid' Y hy
    rcases hform with hform | hform <;> subst hform
    · exact ⟨_, hdy', rfl⟩
    · exact ⟨_, hdy', rfl⟩

/-- C4: on a non-native script struct whose direct property is literally
named `Health_01234567890123456789012345678901_3` (41 characters, above the
35-character threshold), the recovery strips the trailing 33 characters and
cuts at the last remaining underscore, so `RegisterField("Health")` resolves
to that property through the fallback (the plain name lookup fails), while a
name matching no property under this rule yields the absent result; a name of
35 characters or fewer is left unstripped. -/
theorem C4_struct_name_recovery :
    recoverDisplayName "Health_01234567890123456789012345678901_3" = "Health" ∧
    ("Health_01234567890123456789012345678901_3" : String).length = 41 ∧
    recoverDisplayName "Abcdefghijklmnopqrstuvwxyz_12345678" =
      "Abcdefghijklmnopqrstuvwxyz_12345678" ∧
    ("Abcdefghijklmnopqrstuvwxyz_12345678" : String).length = 35 ∧
    findPropertyByName envC4 0 "Health" = none ∧
    (registerField envC4 1 stC4 0 "Health" 0).2 =
      some { queryClass := 0, outerClass := 0, fieldIndex := 1 } ∧
    (lookupA (registerField envC4 1 stC4 0 "Health" 0).1.descs 0).map
      FClassDesc.properties = some [propC4] ∧
    (registerField envC4 1 stC4 0 "Mana" 0).2 = none := by
  decide

/-- C7: for a three-level chain whose topmost ancestor is id 0,
`GetInheritanceChain` on an empty output array on the descriptor of id 2
yields exactly the descriptor itself, then the full `SuperClasses` sequence
resolved at construction, outermost ancestor last. -/
theorem C7_inheritance_chain_order :
    (lookupA stC7.descs 2).map FClassDesc.superClasses = some [1, 0] ∧
    (lookupA stC7.descs 2).map (fun d => getInheritanceChain d []) = some [2, 1, 0] := by
  decide

/-! Witnesses: each claim theorem with hypotheses applied at a concrete
instance, every hypothesis discharged by evaluation. -/

theorem C1_redirect_stores_on_declaring_class_witness :
    ∃ st1 fd, registerField envAB (0 + 2) st0AB 1 "m" 1 = (st1, some fd) ∧
      fd.outerClass = 0 ∧ fd.queryClass = 1 ∧
      (∃ dA1, lookupA st1.descs 0 = some dA1 ∧ lookupA dA1.fields "m" = some fd ∧
        dA1.properties = dBase.properties ++ [propM]) ∧
      (∃ dD1, lookupA st1.descs 1 = some dD1 ∧ dD1.fields = dDerived.fields ∧
        lookupA dD1.fields "m" = none) ∧
      LocalInv st1 :=
  C1_redirect_stores_on_declaring_class envAB 0 st0AB 1 0 "m" 1 dDerived dBase propM propM
    (by decide) (by decide) (by decide) (by decide) (by decide) (by decide) (by decide)
    (by decide) (by decide) (by decide) (by decide)

theorem C2_idempotent_registration_witness :
    registerField envAB 2 stAB1 1 "m" 1 = (stAB1, some fdM) ∧
    (registerField envAB 2 stAB1 1 "m" 1).1.factoryCalls = stAB1.factoryCalls ∧
    (∀ Y dy, lookupA stAB1.descs Y = some dy →
      ∃ dy', lookupA (registerField envAB 2 stAB1 1 "m" 1).1.descs Y = some dy' ∧
        dy'.properties = dy.properties ∧ dy'.functions = dy.functions) :=
  C2_idempotent_registration envAB 2 st0AB stAB1 1 "m" 1 fdM (by decide)

theorem C3_index_sign_encoding_witness :
    ∃ st1 fd, registerField envAB (0 + 1) st0AB 0 "m" 0 = (st1, some fd) ∧
      fd.fieldIndex ≠ 0 := by
  obtain ⟨st1, fd, hcall, hnz, _⟩ :=
    C3_index_sign_encoding envAB 0 st0AB 0 "m" 0 dBase (Member.prop propM)
      (by decide) (by decide) (by decide) (by decide) (by decide)
  exact ⟨st1, fd, hcall, hnz⟩

theorem C5_load_unload_roundtrip_witness :
    ∃ d3, lookupA (loadDesc (unloadDesc (loadDesc st0AB 1) 1) 1).descs 1 = some d3 ∧
      d3.fields = [] ∧ d3.superClasses = dDerived.superClasses := by
  obtain ⟨⟨d3, hd3, hf, _, _, _, _, hsc⟩, _, _⟩ :=
    C5_load_unload_roundtrip st0AB 1 dDerived (by decide)
  exact ⟨d3, hd3, hf, hsc⟩

theorem C6_negative_lookup_is_absent_witness :
    registerField envAB (0 + 1) st0AB 1 "DoesNotExist" 1 = (st0AB, none) :=
  C6_negative_lookup_is_absent envAB 0 st0AB 1 "DoesNotExist" 1 dDerived
    (by decide) (by decide) (by decide) (Or.inl (by decide))

theorem C8_findField_is_lookup_only_witness :
    (findField st0AB 1 "m").2 = lookupA dDerived.fields "m" ∧
    (findField st0AB 1 "m").1.factoryCalls = st0AB.factoryCalls := by
  obtain ⟨h1, _, h3, _⟩ := C8_findField_is_lookup_only st0AB 1 "m" dDerived (by decide)
  exact ⟨h1, h3⟩

theorem C9_failed_registration_no_effect_witness :
    st0AB.factoryCalls = st0AB.factoryCalls ∧
    (∃ d1, lookupA st0AB.descs 1 = some d1 ∧ lookupA d1.fields "DoesNotExist" = none) := by
  obtain ⟨h1, _, h3⟩ :=
    C9_failed_registration_no_effect envAB 1 st0AB st0AB 1 "DoesNotExist" 1 (by decide)
  exact ⟨h1, h3 dDerived (by decide) (by decide)⟩

end UnLua
